import Mathlib

/-!
Verification development for the single-file YouTube VOD archiver
(`download_vod.py`).  The Python source is shallowly embedded: JSON documents
become the inductive type `Json` (numbers are modelled as integers; the claims
under study never involve floating point), Python dictionaries become
association lists in document key order, machine-level exceptions
(`KeyError`, `TypeError`, `ValueError`, `AttributeError`, `OverflowError`)
become `Option.none`, and the SQLite chat table becomes a list of rows with
the `INSERT OR IGNORE` conflict rule made explicit.
-/

/-- JSON documents as produced by `json.loads`.  Objects keep their key order
(CPython dictionaries preserve insertion order, which is what
`extract_renderer` iterates over).  `Json.null` doubles as Python `None`,
exactly as `json.loads` maps JSON `null` to `None`. -/
inductive Json where
  | null : Json
  | bool (b : Bool) : Json
  | int (n : Int) : Json
  | str (s : String) : Json
  | arr (xs : List Json) : Json
  | obj (kvs : List (String × Json)) : Json
deriving Repr

mutual

/-- Decidable equality of embedded JSON values. -/
def decEqJson : (a b : Json) → Decidable (a = b)
  | Json.null, Json.null => isTrue rfl
  | Json.null, Json.bool _ => isFalse (fun h => Json.noConfusion h)
  | Json.null, Json.int _ => isFalse (fun h => Json.noConfusion h)
  | Json.null, Json.str _ => isFalse (fun h => Json.noConfusion h)
  | Json.null, Json.arr _ => isFalse (fun h => Json.noConfusion h)
  | Json.null, Json.obj _ => isFalse (fun h => Json.noConfusion h)
  | Json.bool _, Json.null => isFalse (fun h => Json.noConfusion h)
  | Json.bool a, Json.bool b =>
    match Bool.decEq a b with
    | isTrue h => isTrue (congrArg Json.bool h)
    | isFalse h => isFalse (fun hh => h (Json.bool.inj hh))
  | Json.bool _, Json.int _ => isFalse (fun h => Json.noConfusion h)
  | Json.bool _, Json.str _ => isFalse (fun h => Json.noConfusion h)
  | Json.bool _, Json.arr _ => isFalse (fun h => Json.noConfusion h)
  | Json.bool _, Json.obj _ => isFalse (fun h => Json.noConfusion h)
  | Json.int _, Json.null => isFalse (fun h => Json.noConfusion h)
  | Json.int _, Json.bool _ => isFalse (fun h => Json.noConfusion h)
  | Json.int a, Json.int b =>
    match Int.decEq a b with
    | isTrue h => isTrue (congrArg Json.int h)
    | isFalse h => isFalse (fun hh => h (Json.int.inj hh))
  | Json.int _, Json.str _ => isFalse (fun h => Json.noConfusion h)
  | Json.int _, Json.arr _ => isFalse (fun h => Json.noConfusion h)
  | Json.int _, Json.obj _ => isFalse (fun h => Json.noConfusion h)
  | Json.str _, Json.null => isFalse (fun h => Json.noConfusion h)
  | Json.str _, Json.bool _ => isFalse (fun h => Json.noConfusion h)
  | Json.str _, Json.int _ => isFalse (fun h => Json.noConfusion h)
  | Json.str a, Json.str b =>
    match String.decEq a b with
    | isTrue h => isTrue (congrArg Json.str h)
    | isFalse h => isFalse (fun hh => h (Json.str.inj hh))
  | Json.str _, Json.arr _ => isFalse (fun h => Json.noConfusion h)
  | Json.str _, Json.obj _ => isFalse (fun h => Json.noConfusion h)
  | Json.arr _, Json.null => isFalse (fun h => Json.noConfusion h)
  | Json.arr _, Json.bool _ => isFalse (fun h => Json.noConfusion h)
  | Json.arr _, Json.int _ => isFalse (fun h => Json.noConfusion h)
  | Json.arr _, Json.str _ => isFalse (fun h => Json.noConfusion h)
  | Json.arr xs, Json.arr ys =>
    match decEqJsonList xs ys with
    | isTrue h => isTrue (congrArg Json.arr h)
    | isFalse h => isFalse (fun hh => h (Json.arr.inj hh))
  | Json.arr _, Json.obj _ => isFalse (fun h => Json.noConfusion h)
  | Json.obj _, Json.null => isFalse (fun h => Json.noConfusion h)
  | Json.obj _, Json.bool _ => isFalse (fun h => Json.noConfusion h)
  | Json.obj _, Json.int _ => isFalse (fun h => Json.noConfusion h)
  | Json.obj _, Json.str _ => isFalse (fun h => Json.noConfusion h)
  | Json.obj _, Json.arr _ => isFalse (fun h => Json.noConfusion h)
  | Json.obj xs, Json.obj ys =>
    match decEqJsonKVs xs ys with
    | isTrue h => isTrue (congrArg Json.obj h)
    | isFalse h => isFalse (fun hh => h (Json.obj.inj hh))

/-- Decidable equality of lists of JSON values. -/
def decEqJsonList : (a b : List Json) → Decidable (a = b)
  | [], [] => isTrue rfl
  | [], _ :: _ => isFalse (fun h => List.noConfusion h)
  | _ :: _, [] => isFalse (fun h => List.noConfusion h)
  | x :: xs, y :: ys =>
    match decEqJson x y with
    | isFalse h => isFalse (fun hh => h (List.cons.inj hh).1)
    | isTrue h1 =>
      match decEqJsonList xs ys with
      | isTrue h2 => isTrue (by rw [h1, h2])
      | isFalse h2 => isFalse (fun hh => h2 (List.cons.inj hh).2)

/-- Decidable equality of JSON object entry lists. -/
def decEqJsonKVs : (a b : List (String × Json)) → Decidable (a = b)
  | [], [] => isTrue rfl
  | [], _ :: _ => isFalse (fun h => List.noConfusion h)
  | _ :: _, [] => isFalse (fun h => List.noConfusion h)
  | (k1, v1) :: xs, (k2, v2) :: ys =>
    match String.decEq k1 k2 with
    | isFalse h =>
      isFalse (fun hh => h (congrArg Prod.fst (List.cons.inj hh).1))
    | isTrue hk =>
      match decEqJson v1 v2 with
      | isFalse h =>
        isFalse (fun hh => h (congrArg Prod.snd (List.cons.inj hh).1))
      | isTrue hv =>
        match decEqJsonKVs xs ys with
        | isTrue ht => isTrue (by rw [hk, hv, ht])
        | isFalse h => isFalse (fun hh => h (List.cons.inj hh).2)

end

instance : DecidableEq Json := decEqJson

/-- Python truthiness (`bool(x)`) on embedded JSON values: `None`, `False`,
`0`, the empty string, the empty list and the empty dict are falsy. -/
def truthy : Json → Bool
  | Json.null => false
  | Json.bool b => b
  | Json.int n => n != 0
  | Json.str s => s != ""
  | Json.arr xs => !xs.isEmpty
  | Json.obj kvs => !kvs.isEmpty

/-- Python short-circuit `a or b` on embedded values. -/
def pyOr (a b : Json) : Json := if truthy a then a else b

/-- Character-list prefix test used to model the Python substring operator. -/
def isPrefixChars : List Char → List Char → Bool
  | [], _ => true
  | _ :: _, [] => false
  | c :: cs, d :: ds => c == d && isPrefixChars cs ds

/-- Character-list infix test used to model the Python substring operator. -/
def containsSub (sub : List Char) : List Char → Bool
  | [] => isPrefixChars sub []
  | c :: t => isPrefixChars sub (c :: t) || containsSub sub t

/-- Python `sub in hay` for strings: case-sensitive substring containment. -/
def strContains (hay sub : String) : Bool := containsSub sub.toList hay.toList

/-- Lookup in a Python dict modelled as an association list, with a default
(`d.get(k, default)`): total, never raises. -/
def metaGetD (m : List (String × Json)) (k : String) (dflt : Json) : Json :=
  (List.lookup k m).getD dflt

/-- Lookup `d.get(k)`: absent keys give `None`. -/
def metaGet (m : List (String × Json)) (k : String) : Json :=
  metaGetD m k Json.null

/-- Python attribute call `j.get(k, default)`: raises `AttributeError`
(modelled as `none`) when the receiver is not a dict. -/
def pyGetD (j : Json) (k : String) (dflt : Json) : Option Json :=
  match j with
  | Json.obj kvs => some (metaGetD kvs k dflt)
  | _ => none

/-- Python attribute call `j.get(k)`. -/
def pyGet (j : Json) (k : String) : Option Json := pyGetD j k Json.null

/-- Python `k in j`: key membership for dicts, element equality for lists,
substring for strings; `TypeError` (`none`) otherwise. -/
def pyContains (j : Json) (k : String) : Option Bool :=
  match j with
  | Json.obj kvs => some (kvs.any (fun kv => kv.fst == k))
  | Json.arr xs => some (xs.any (fun x => x == Json.str k))
  | Json.str s => some (strContains s k)
  | _ => none

/-- Python subscript `j[k]` with a string key: dict lookup raising `KeyError`
when absent; `TypeError` on every other receiver. -/
def pySubscript (j : Json) (k : String) : Option Json :=
  match j with
  | Json.obj kvs => List.lookup k kvs
  | _ => none

/-- Python subscript `j[0]`: first element of a list, first character of a
string; `IndexError`/`TypeError` (`none`) otherwise. -/
def pyIndex0 : Json → Option Json
  | Json.arr (x :: _) => some x
  | Json.str s =>
    match s.toList with
    | c :: _ => some (Json.str (String.mk [c]))
    | [] => none
  | _ => none

/-- Python iteration `for x in j`: list elements, dict keys, the characters
of a string; `TypeError` (`none`) otherwise. -/
def pyIterate : Json → Option (List Json)
  | Json.arr xs => some xs
  | Json.obj kvs => some (kvs.map (fun kv => Json.str kv.fst))
  | Json.str s => some (s.toList.map (fun c => Json.str (String.mk [c])))
  | _ => none

/-- Value of a nonempty digit string (no sign). -/
def digitsVal (cs : List Char) : Option Nat :=
  if cs.isEmpty then none
  else
    cs.foldl
      (fun acc c =>
        match acc with
        | none => none
        | some a => if c.isDigit then some (a * 10 + (c.toNat - 48)) else none)
      (some 0)

/-- ASCII whitespace stripped by Python `int()`. -/
def isPyWs (c : Char) : Bool :=
  c == ' ' || c == '\t' || c == '\n' || c == '\r'

/-- Python `int(s)` on a string: strip whitespace, optional sign, decimal
digits; `ValueError` (`none`) otherwise.  (Numeric-literal underscores are
not modelled; no input under study uses them.) -/
def parseIntPy (s : String) : Option Int :=
  let cs := ((s.toList.dropWhile isPyWs).reverse.dropWhile isPyWs).reverse
  match cs with
  | '-' :: rest => (digitsVal rest).map (fun n => -(n : Int))
  | '+' :: rest => (digitsVal rest).map (fun n => (n : Int))
  | rest => (digitsVal rest).map (fun n => (n : Int))

/-- Python `int(j)` on an embedded value: identity on ints, parse on strings,
`True`/`False` are `1`/`0`; `TypeError` (`none`) on everything else. -/
def pyInt : Json → Option Int
  | Json.int n => some n
  | Json.str s => parseIntPy s
  | Json.bool b => some (if b then 1 else 0)
  | _ => none

mutual

/-- Python `repr` of an embedded value (quotes are not escaped; the claims
never depend on the repr of exotic containers). -/
def pyRepr : Json → String
  | Json.null => "None"
  | Json.bool b => if b then "True" else "False"
  | Json.int n => toString n
  | Json.str s => "\x27" ++ s ++ "\x27"
  | Json.arr xs => "[" ++ String.intercalate (", ") (pyReprList xs) ++ "]"
  | Json.obj kvs => "\x7b" ++ String.intercalate (", ") (pyReprKVs kvs) ++ "\x7d"

/-- Helper of `pyRepr` for list elements. -/
def pyReprList : List Json → List String
  | [] => []
  | x :: xs => pyRepr x :: pyReprList xs

/-- Helper of `pyRepr` for dict entries. -/
def pyReprKVs : List (String × Json) → List String
  | [] => []
  | kv :: kvs => ("\x27" ++ kv.fst ++ "\x27: " ++ pyRepr kv.snd) :: pyReprKVs kvs

end

/-- Python `str(j)` as used inside f-strings. -/
def pyStr (j : Json) : String :=
  match j with
  | Json.str s => s
  | _ => pyRepr j

/-- Zero-pad a natural number to two decimal digits. -/
def pad2 (n : Nat) : String :=
  if n < 10 then "0" ++ toString n else toString n

/-- Zero-pad a natural number to four decimal digits. -/
def pad4 (n : Nat) : String :=
  let s := toString n
  String.mk (List.replicate (4 - s.length) '0') ++ s

/-- Zero-pad a natural number to six decimal digits. -/
def pad6 (n : Nat) : String :=
  let s := toString n
  String.mk (List.replicate (6 - s.length) '0') ++ s

/-- Gregorian civil date from days since the Unix epoch (the standard
era-based algorithm, as realised by `datetime.fromtimestamp` with UTC). -/
def civilFromDays (z0 : Int) : Int × Nat × Nat :=
  let z := z0 + 719468
  let era := Int.fdiv z 146097
  let doe := (Int.fmod z 146097).toNat
  let yoe := (doe - doe / 1460 + doe / 36524 - doe / 146096) / 365
  let y := (yoe : Int) + era * 400
  let doy := doe - (365 * yoe + yoe / 4 - yoe / 100)
  let mp := (5 * doy + 2) / 153
  let d := doy - (153 * mp + 2) / 5 + 1
  let m := if mp < 10 then mp + 3 else mp - 9
  (if m ≤ 2 then y + 1 else y, m, d)

/-- The `YYYY-MM-DDTHH:MM:SS` part of
`datetime.fromtimestamp(n, UTC).isoformat()`. -/
def isoCore (n : Int) : String :=
  let days := Int.fdiv n 86400
  let secs := (Int.fmod n 86400).toNat
  let ymd := civilFromDays days
  let y := ymd.fst
  let m := ymd.snd.fst
  let d := ymd.snd.snd
  pad4 y.toNat ++ "-" ++ pad2 m ++ "-" ++ pad2 d ++ "T" ++
    pad2 (secs / 3600) ++ ":" ++ pad2 (secs % 3600 / 60) ++ ":" ++ pad2 (secs % 60)

/-- ISO-8601 UTC rendering of a Unix-seconds instant, with the `+00:00`
offset rewritten to `Z` as in `iso_from_ts`. -/
def isoUTC (n : Int) : String := isoCore n ++ "Z"

/-- ISO rendering with a microsecond part, printed only when nonzero, as
`datetime.isoformat` does. -/
def isoUTCmicro (sec : Int) (micro : Nat) : String :=
  isoCore sec ++ (if micro = 0 then "" else "." ++ pad6 micro) ++ "Z"

/-- Lower bound of `datetime.fromtimestamp` (0001-01-01T00:00:00 UTC). -/
def minTs : Int := -62135596800

/-- Upper bound of `datetime.fromtimestamp` (9999-12-31T23:59:59 UTC). -/
def maxTs : Int := 253402300799

/-- Option-valued `mapM` with explicit left-to-right sequencing, used for the
loops of the Python source (any failing element fails the whole loop). -/
def mapMO (f : α → Option β) : List α → Option (List β)
  | [] => some []
  | x :: xs => do
    let y ← f x
    let ys ← mapMO f xs
    pure (y :: ys)

/-- Embedding of `iso_from_ts`: falsy input gives `None`; strings are parsed
with `int()`; the result is the ISO-8601 UTC rendering with trailing `Z`.
Out-of-range instants raise in `datetime.fromtimestamp` (`none`). -/
def iso_from_ts (ts : Json) : Option Json :=
  if truthy ts = false then some Json.null
  else do
    let n ← pyInt ts
    if n < minTs ∨ maxTs < n then none
    else some (Json.str (isoUTC n))

/-- Embedding of `iso_from_usec`: like `iso_from_ts` but the integer is in
microseconds; `fromtimestamp(us / 1e6)` keeps the microsecond remainder. -/
def iso_from_usec (us : Json) : Option Json :=
  if truthy us = false then some Json.null
  else do
    let n ← pyInt us
    let sec := Int.fdiv n 1000000
    let micro := (Int.fmod n 1000000).toNat
    if sec < minTs ∨ maxTs < sec then none
    else some (Json.str (isoUTCmicro sec micro))

/-- The tuple `RENDERER_KEYS` of the source, in its order. -/
def RENDERER_KEYS : List String :=
  ["liveChatTextMessageRenderer",
   "liveChatPaidMessageRenderer",
   "liveChatPaidStickerRenderer",
   "liveChatStickerRenderer",
   "liveChatViewerEngagementMessageRenderer"]

/-- Test `k in RENDERER_KEYS` for an iterated value (only strings can match). -/
def isRendererKeyJ : Json → Bool
  | Json.str s => RENDERER_KEYS.contains s
  | _ => false

/-- Embedding of `extract_renderer`.  Outer `none` is an uncaught exception;
inner `none` is the `(None, "", False)` no-row result.  Note the source scans
the keys of the *item itself* (`next(k for k in item if k in RENDERER_KEYS)`),
so the first matching key in document order wins. -/
def extract_renderer (action : Json) : Option (Option (Json × String × Bool)) := do
  let c1 ← pyContains action ("addChatItemAction")
  if c1 then do
    let aci ← pySubscript action ("addChatItemAction")
    let item ← pySubscript aci ("item")
    let ks ← pyIterate item
    match ks.find? isRendererKeyJ with
    | some (Json.str k) => do
      let ren ← pySubscript item k
      pure (some (ren, k, false))
    | some _ => none
    | none => pure none
  else do
    let c2 ← pyContains action ("addBannerToLiveChatCommand")
    if c2 then do
      let abc ← pySubscript action ("addBannerToLiveChatCommand")
      let br ← pySubscript abc ("bannerRenderer")
      let banner ← pySubscript br ("liveChatBannerRenderer")
      let contents ← pySubscript banner ("contents")
      let ks ← pyIterate contents
      match ks.find? isRendererKeyJ with
      | some (Json.str k) => do
        let ren ← pySubscript contents k
        pure (some (ren, k, true))
      | some _ => none
      | none => pure none
    else pure none

/-- One run entry of `render_runs`: text runs verbatim, emoji runs prefer the
first shortcut, else the `emojiId` fallback; non-string pieces make the final
`"".join` raise (`none`). -/
def runPiece (r : Json) : Option String := do
  let hasText ← pyContains r ("text")
  if hasText then do
    let t ← pySubscript r ("text")
    match t with
    | Json.str s => pure s
    | _ => none
  else do
    let hasEmoji ← pyContains r ("emoji")
    if hasEmoji then do
      let e ← pySubscript r ("emoji")
      let sc ← pyGet e ("shortcuts")
      if truthy sc then do
        let f ← pyIndex0 sc
        match f with
        | Json.str s => pure s
        | _ => none
      else do
        let d ← pyGetD e ("emojiId") (Json.str "")
        match d with
        | Json.str s => pure s
        | _ => none
    else pure ("")

/-- Embedding of `render_runs` over the already-iterated run list. -/
def render_runs (runs : List Json) : Option String :=
  (mapMO runPiece runs).map (fun ps => String.join ps)

/-- Filter of `badge_list`: keep entries carrying the badge renderer key. -/
def badgeFilter : List Json → Option (List Json)
  | [] => some []
  | b :: rest => do
    let c ← pyContains b ("liveChatAuthorBadgeRenderer")
    let tail ← badgeFilter rest
    pure (if c then b :: tail else tail)

/-- Icon extraction of `badge_list`: nested `.get` defaults, then
`.upper()` (which raises on non-strings). -/
def badgeIcon (b : Json) : Option String := do
  let v1 ← pyGetD b ("liveChatAuthorBadgeRenderer") (Json.obj [])
  let v2 ← pyGetD v1 ("icon") (Json.obj [])
  let v3 ← pyGetD v2 ("iconType") (Json.str "")
  match v3 with
  | Json.str s => some s.toUpper
  | _ => none

/-- Embedding of `badge_list` over the already-iterated badge list:
`;`-joined uppercased icon types, in order, skipping entries without the
badge renderer wrapper. -/
def badge_list (bs : List Json) : Option String := do
  let sel ← badgeFilter bs
  let parts ← mapMO badgeIcon sel
  pure (String.intercalate (";") parts)

/-- Embedding of the `mtype` conditional of `chat_json_to_sqlite`
(lines 197-205): a total function of the renderer kind key using
case-sensitive substring tests. -/
def message_type (rkey : String) : String :=
  if strContains rkey ("Paid") then "paid"
  else if strContains rkey ("Sticker") then "sticker"
  else if strContains rkey ("ViewerEngagement") then "system"
  else "text"

/-- Format `f"{micros / 1_000_000:.2f}"` exactly on hundredths
(round-half-even; binary-float artifacts of CPython are not modelled). -/
def fmt2 (micros : Int) : String :=
  let q0 := Int.fdiv micros 10000
  let r := Int.fmod micros 10000
  let hundredths :=
    if 2 * r > 10000 then q0 + 1
    else if 2 * r < 10000 then q0
    else if q0 % 2 = 0 then q0 else q0 + 1
  let neg := hundredths < 0
  let a := hundredths.natAbs
  (if neg then "-" else "") ++ toString (a / 100) ++ "." ++ pad2 (a % 100)

/-- One persisted chat row, with the loosely-typed columns kept as JSON
values exactly as the source binds them into the SQL parameters. -/
structure Row where
  message_id : Json
  message_sent_absolute : Json
  message_sent_offset : Int
  user_name : Json
  user_id : Json
  user_logo : Json
  message_body : Json
  donation : Json
  color : Json
  message_type : String
  is_pinned : Int
  author_badges : String
deriving DecidableEq, Repr

/-- The `sent` extraction (line 177): `iso_from_usec(ren.get("timestampUsec"))`. -/
def sentOf (ren : Json) : Option Json := do
  let tsu ← pyGet ren ("timestampUsec")
  iso_from_usec tsu

/-- The `author` extraction (line 178):
`ren.get("authorName", {}).get("simpleText")`. -/
def authorOf (ren : Json) : Option Json := do
  let an ← pyGetD ren ("authorName") (Json.obj [])
  pyGet an ("simpleText")

/-- The `logo` extraction (line 180):
`(ren.get("authorPhoto", {}).get("thumbnails", [{}])[0]).get("url")`. -/
def logoOf (ren : Json) : Option Json := do
  let photo ← pyGetD ren ("authorPhoto") (Json.obj [])
  let thumbs ← pyGetD photo ("thumbnails") (Json.arr [Json.obj []])
  let first ← pyIndex0 thumbs
  pyGet first ("url")

/-- The `color` extraction (line 181):
`ren.get("bodyBackgroundColor") or ren.get("headerBackgroundColor")`. -/
def colorOf (ren : Json) : Option Json := do
  let cb ← pyGet ren ("bodyBackgroundColor")
  let ch ← pyGet ren ("headerBackgroundColor")
  pure (pyOr cb ch)

/-- The `body` extraction (lines 183-188): structured run list first, else
the accessibility label, else `None`. -/
def bodyOf (ren : Json) : Option Json := do
  let hasMsg ← pyContains ren ("message")
  if hasMsg then do
    let msg ← pySubscript ren ("message")
    let runsJ ← pyGetD msg ("runs") (Json.arr [])
    let runs ← pyIterate runsJ
    let btxt ← render_runs runs
    pure (Json.str btxt)
  else do
    let hasAcc ← pyContains ren ("accessibility")
    if hasAcc then do
      let acc ← pySubscript ren ("accessibility")
      let ad ← pySubscript acc ("accessibilityData")
      pySubscript ad ("label")
    else pure Json.null

/-- The `donation` extraction (lines 190-194): attempted only when
`purchaseAmountMicros` is present. -/
def donationOf (ren : Json) (color : Json) : Option Json := do
  let hasPur ← pyContains ren ("purchaseAmountMicros")
  if hasPur then do
    let pj ← pySubscript ren ("purchaseAmountMicros")
    let micros ← pyInt pj
    let cur1 ← pyGet ren ("currency")
    let cur2 ← pyGetD ren ("purchaseCurrency") (Json.str "")
    let cur := pyOr cur1 cur2
    pure (Json.str (fmt2 micros ++ "; " ++ pyStr cur ++ "; " ++ pyStr color))
  else pure Json.null

/-- The `badges` extraction (line 196): `badge_list(ren.get("authorBadges", []))`. -/
def badgesOf (ren : Json) : Option String := do
  let badgesArg ← pyGetD ren ("authorBadges") (Json.arr [])
  let bl ← pyIterate badgesArg
  badge_list bl

/-- Field extraction for one renderer, in the statement order of the source
loop body (lines 176-222).  `none` is an uncaught exception. -/
def buildRow (ren : Json) (rkey : String) (pinned : Bool) (offset_ms : Int) :
    Option Row := do
  let mid ← pyGet ren ("id")
  let sent ← sentOf ren
  let author ← authorOf ren
  let aid ← pyGet ren ("authorExternalChannelId")
  let logo ← logoOf ren
  let color ← colorOf ren
  let body ← bodyOf ren
  let donation ← donationOf ren color
  let badges ← badgesOf ren
  pure (Row.mk mid sent (Int.fdiv offset_ms 1000) author aid logo body donation
    color (message_type rkey) (if pinned then 1 else 0) badges)

/-- The offset read of line 170:
`int(top["replayChatItemAction"].get("videoOffsetTimeMsec", "0"))`. -/
def readOffset (rca : Json) : Option Int := do
  let j ← pyGetD rca ("videoOffsetTimeMsec") (Json.str "0")
  pyInt j

/-- One action of the inner loop: no-row actions contribute nothing. -/
def processAct (offset_ms : Int) (act : Json) : Option (List Row) := do
  let r ← extract_renderer act
  match r with
  | none => pure []
  | some (ren, rkey, pinned) => do
    let row ← buildRow ren rkey pinned offset_ms
    pure [row]

/-- Rows contributed by one top-level object: objects without the
`replayChatItemAction` wrapper are skipped; the offset is read once, then
every action of the wrapper is processed. -/
def processTop (top : Json) : Option (List Row) := do
  let c ← pyContains top ("replayChatItemAction")
  if c then do
    let rca ← pySubscript top ("replayChatItemAction")
    let off ← readOffset rca
    let actsJ ← pySubscript rca ("actions")
    let acts ← pyIterate actsJ
    let rowss ← mapMO (processAct off) acts
    pure rowss.flatten
  else pure []

/-- A raw chat dump as seen by `iter_top_objs`: either the whole text parsed
as one JSON value (an array yields its elements, anything else is a single
top object), or — when whole-text parsing fails, which is in particular what
a malformed object inside the array form produces — the per-line parse
results of the nonblank lines, where `none` marks a line that is malformed
JSON. -/
inductive RawChatDump where
  | whole (top : Json) : RawChatDump
  | lines (ls : List (Option Json)) : RawChatDump

/-- Embedding of `iter_top_objs`: the sequence of top-level objects, or
`none` when a line raises `json.JSONDecodeError`. -/
def iter_top_objs : RawChatDump → Option (List Json)
  | RawChatDump.whole (Json.arr xs) => some xs
  | RawChatDump.whole j => some [j]
  | RawChatDump.lines ls => mapMO id ls

/-- SQLite `INSERT OR IGNORE` into a table whose PRIMARY KEY column is
`message_id`: a row is ignored exactly when its key is non-NULL and equal to
the key of an existing row (SQLite permits NULL primary keys in a non-STRICT
table and treats NULLs as pairwise distinct). -/
def insertOrIgnore (t : List Row) (r : Row) : List Row :=
  if r.message_id ≠ Json.null ∧ ∃ y ∈ t, y.message_id = r.message_id then t
  else t ++ [r]

/-- The `executemany` of all accumulated rows into the store. -/
def commitRows (store : List Row) (rows : List Row) : List Row :=
  rows.foldl insertOrIgnore store

/-- Embedding of `chat_json_to_sqlite`: all rows are accumulated in memory
first; only when the whole dump parses and extracts without an exception is
anything committed.  `none` models an uncaught exception raised before
`sqlite3.connect`, leaving the store unchanged. -/
def chat_json_to_sqlite (dump : RawChatDump) (store : List Row) :
    Option (List Row) := do
  let tops ← iter_top_objs dump
  let rowss ← mapMO processTop tops
  pure (commitRows store rowss.flatten)

/-- Python `str(datetime.timedelta(seconds=n))` for an integral number of
seconds: `H:MM:SS`, preceded by a day count when the normalised day part is
nonzero (days use floor division, so negative inputs render like
`-1 day, 23:59:59`). -/
def tdStr (n : Int) : String :=
  let d := Int.fdiv n 86400
  let r := (Int.fmod n 86400).toNat
  let core := toString (r / 3600) ++ ":" ++ pad2 (r % 3600 / 60) ++ ":" ++ pad2 (r % 60)
  let plural := if d = 1 ∨ d = -1 then "" else "s"
  if d = 0 then core
  else toString d ++ " day" ++ plural ++ ", " ++ core

/-- The `duration_string` derivation of `write_meta_json` (lines 258-259):
`meta.get("duration_string") or str(timedelta(seconds=meta.get("duration") or 0))`,
with Python short-circuit `or`; a truthy non-integer duration makes
`timedelta` raise. -/
def durationString (meta : List (String × Json)) : Option Json :=
  let ds := metaGet meta ("duration_string")
  if truthy ds then some ds
  else
    let d := metaGet meta ("duration")
    let dv := if truthy d then d else Json.int 0
    match dv with
    | Json.int n => some (Json.str (tdStr n))
    | Json.bool b => some (Json.str (tdStr (if b then 1 else 0)))
    | _ => none

/-- Embedding of `iso_end` (lines 235-237):
`iso_from_ts(int(s) + int(d)) if s and d else None` where
`s = meta.get("release_timestamp") or meta.get("timestamp")` and
`d = meta.get("duration")`. -/
def iso_end (meta : List (String × Json)) : Option Json :=
  let s := pyOr (metaGet meta ("release_timestamp")) (metaGet meta ("timestamp"))
  let d := metaGet meta ("duration")
  if truthy s && truthy d then do
    let si ← pyInt s
    let di ← pyInt d
    iso_from_ts (Json.int (si + di))
  else some Json.null

/-- The description side effect (lines 283-286): the file is written only
when the canonical description is truthy; `write_text` raises on
non-strings. -/
def descOut (d : Json) : Option (Option String) :=
  if truthy d then
    match d with
    | Json.str s => some (some s)
    | _ => none
  else some none

/-- Embedding of `write_meta_json`: the canonical record in the key order of
the source dict literal, plus the optional description-file content.  The
raw metadata is an already-parsed JSON object; `downloaded_at` (wall clock)
and the media digest are passed in.  `none` is an uncaught exception — in
particular the `KeyError` of `meta["id"]`, the only subscript that does not
degrade to a default. -/
def write_meta_json (meta : List (String × Json)) (vod_sha : String)
    (now : String) : Option (List (String × Json) × Option String) := do
  let idv ← List.lookup ("id") meta
  let created ← iso_from_ts (pyOr (metaGet meta ("release_timestamp"))
    (metaGet meta ("timestamp")))
  let published ← iso_from_ts (metaGet meta ("upload_date"))
  let durS ← durationString meta
  let startT ← iso_from_ts (pyOr (metaGet meta ("release_timestamp"))
    (metaGet meta ("timestamp")))
  let endT ← iso_end meta
  let outRec : List (String × Json) :=
    [("stream_id", Json.null),
     ("vod_id", Json.str ("v" ++ pyStr idv)),
     ("title", metaGet meta ("title")),
     ("created_at", created),
     ("published_at", published),
     ("thumbnail_url", metaGet meta ("thumbnail")),
     ("thumbnail_filename", Json.str "thumbnail_main.jpg"),
     ("url", metaGet meta ("webpage_url")),
     ("downloaded_at", Json.str now),
     ("vod_sha256", Json.str vod_sha),
     ("duration", metaGet meta ("duration")),
     ("duration_string", durS),
     ("start_time", startT),
     ("end_time", endT),
     ("initial_title", metaGet meta ("title")),
     ("language", metaGet meta ("language")),
     ("origin", Json.str "youtube"),
     ("like_count", metaGet meta ("like_count")),
     ("comment_count", metaGet meta ("comment_count")),
     ("view_count", metaGet meta ("view_count")),
     ("availability", metaGet meta ("availability")),
     ("resolution", metaGet meta ("resolution")),
     ("fps", metaGet meta ("fps")),
     ("channel", metaGet meta ("channel")),
     ("channel_follower_count", metaGet meta ("channel_follower_count")),
     ("channel_is_verified", metaGet meta ("channel_is_verified")),
     ("description", metaGet meta ("description")),
     ("tags", metaGet meta ("tags"))]
  let dd ← descOut (metaGet meta ("description"))
  pure (outRec, dd)

/-- One candidate thumbnail file: its name and content bytes.  The byte size
used for ranking (`p.stat().st_size`) is the content length. -/
structure Thumb where
  name : String
  content : List Nat
deriving DecidableEq, Repr

/-- Byte size of a thumbnail file. -/
def Thumb.size (t : Thumb) : Nat := t.content.length

/-- The dedup loop of `main` (lines 355-363) over files in enumeration
order, parameterised by the content hasher (`sha256f` in the source; the
loop only ever compares digests for equality): returns the surviving
`uniq` list and the deleted files, given the already-seen digest set. -/
def dedupScan {δ : Type} [DecidableEq δ] (digest : List Nat → δ) :
    List Thumb → List δ → List Thumb × List Thumb
  | [], _ => ([], [])
  | p :: ps, seen =>
    let h := digest p.content
    if h ∈ seen then
      let r := dedupScan digest ps seen
      (r.1, p :: r.2)
    else
      let r := dedupScan digest ps (h :: seen)
      (p :: r.1, r.2)

/-- Stable insertion of a file into a size-descending list: equal sizes keep
the earlier file first, matching Python `list.sort(key=..., reverse=True)`
which is stable. -/
def insertBySize (t : Thumb) : List Thumb → List Thumb
  | [] => [t]
  | u :: us => if u.size < t.size then t :: u :: us else u :: insertBySize t us

/-- Stable descending sort by byte size (line 364). -/
def sortBySizeDesc (ts : List Thumb) : List Thumb :=
  ts.foldl (fun acc t => insertBySize t acc) []

/-- Canonical name for the survivor at sorted index `i` (lines 365-369). -/
def thumbName (i : Nat) : String :=
  if i = 0 then "thumbnail_main.jpg" else "thumbnail_" ++ pad4 i ++ ".jpg"

/-- Embedding of the thumbnail step of `main` (lines 351-369): on an empty
candidate set nothing happens; otherwise duplicates-by-digest are deleted
and the survivors are renamed in size order.  Result: the (new name, file)
assignments and the deleted files. -/
def dedup_thumbnails {δ : Type} [DecidableEq δ] (digest : List Nat → δ)
    (thumbs : List Thumb) : List (String × Thumb) × List Thumb :=
  if thumbs.isEmpty then ([], [])
  else
    let r := dedupScan digest thumbs []
    ((sortBySizeDesc r.1).enum.map (fun it => (thumbName it.1, it.2)), r.2)

/-! Concrete instances used by the claim analyses. -/

/-- A chat item whose object carries two renderer kind keys, the paid-message
key first in document order, the text key second. -/
def c1item : List (String × Json) :=
  [("liveChatPaidMessageRenderer", Json.obj [("id", Json.str "p")]),
   ("liveChatTextMessageRenderer", Json.obj [("id", Json.str "t")])]

/-- The `add-item` action wrapping `c1item`. -/
def c1action : Json :=
  Json.obj [("addChatItemAction", Json.obj [("item", Json.obj c1item)])]

/-- A dump whose only top object has a non-integer `videoOffsetTimeMsec`. -/
def c2dump : RawChatDump :=
  RawChatDump.whole (Json.obj
    [("replayChatItemAction", Json.obj
      [("videoOffsetTimeMsec", Json.str "abc"),
       ("actions", Json.arr [])])])

/-- A well-formed top-level object with one plain text message at offset
5500 ms. -/
def c4top : Json :=
  Json.obj
    [("replayChatItemAction", Json.obj
      [("videoOffsetTimeMsec", Json.str "5500"),
       ("actions", Json.arr
         [Json.obj [("addChatItemAction", Json.obj
           [("item", Json.obj
             [("liveChatTextMessageRenderer", Json.obj
               [("id", Json.str "m1"),
                ("message", Json.obj [("runs", Json.arr
                  [Json.obj [("text", Json.str "hi")]])])])])])]])])]

/-- A well-formed dump holding exactly `c4top`. -/
def c4dump : RawChatDump := RawChatDump.whole c4top

/-- The single row extracted from `c4dump`. -/
def c4row : Row :=
  Row.mk (Json.str "m1") Json.null 5 Json.null Json.null Json.null
    (Json.str "hi") Json.null Json.null "text" 0 ""

/-- Thumbnail A: two bytes. -/
def c6A : Thumb := Thumb.mk ("a.jpg") [1, 2]

/-- Thumbnail B: three bytes, distinct content, larger than A. -/
def c6B : Thumb := Thumb.mk ("b.jpg") [3, 4, 5]

/-- Thumbnail C: byte-identical to A. -/
def c6C : Thumb := Thumb.mk ("c.jpg") [1, 2]

/-- Raw metadata with an id and nothing else. -/
def c7meta : List (String × Json) := [("id", Json.str "x")]

/-- Raw metadata with a start timestamp present and a duration present but
equal to zero. -/
def c8meta : List (String × Json) :=
  [("release_timestamp", Json.int 1700000000), ("duration", Json.int 0)]

/-- Raw metadata where the upload timestamp is nonzero but the duration is
present and zero. -/
def c10meta : List (String × Json) :=
  [("id", Json.str "x"), ("timestamp", Json.int 1700000000),
   ("duration", Json.int 0)]

/-- Raw metadata where both timestamp fields and the duration are present
but zero. -/
def c10wmeta : List (String × Json) :=
  [("id", Json.str "x"), ("timestamp", Json.int 0), ("duration", Json.int 0)]

/-- The canonical record produced from `c10wmeta` with digest `s` at
wall-clock `n`. -/
def c10wrec : List (String × Json) :=
  [("stream_id", Json.null),
   ("vod_id", Json.str "vx"),
   ("title", Json.null),
   ("created_at", Json.null),
   ("published_at", Json.null),
   ("thumbnail_url", Json.null),
   ("thumbnail_filename", Json.str "thumbnail_main.jpg"),
   ("url", Json.null),
   ("downloaded_at", Json.str "n"),
   ("vod_sha256", Json.str "s"),
   ("duration", Json.int 0),
   ("duration_string", Json.str "0:00:00"),
   ("start_time", Json.null),
   ("end_time", Json.null),
   ("initial_title", Json.null),
   ("language", Json.null),
   ("origin", Json.str "youtube"),
   ("like_count", Json.null),
   ("comment_count", Json.null),
   ("view_count", Json.null),
   ("availability", Json.null),
   ("resolution", Json.null),
   ("fps", Json.null),
   ("channel", Json.null),
   ("channel_follower_count", Json.null),
   ("channel_is_verified", Json.null),
   ("description", Json.null),
   ("tags", Json.null)]

/-- The `add-item` action wrapper around an item object. -/
def itemWrapper (kvs : List (String × Json)) : Json :=
  Json.obj [("addChatItemAction", Json.obj [("item", Json.obj kvs)])]

/-- The banner action wrapper around a contents object. -/
def bannerWrapper (kvs : List (String × Json)) : Json :=
  Json.obj [("addBannerToLiveChatCommand", Json.obj
    [("bannerRenderer", Json.obj [("liveChatBannerRenderer", Json.obj
      [("contents", Json.obj kvs)])])])]

/-! Shared lemmas about the embedding. -/

/-- A loop with a failing element fails as a whole. -/
theorem mapMO_eq_none_of_mem (ls : List (Option Json)) (h : none ∈ ls) :
    mapMO id ls = none := by
  induction ls with
  | nil => simp at h
  | cons x xs ih =>
    rcases List.mem_cons.mp h with h1 | h2
    · rw [← h1]; rfl
    · cases x with
      | none => rfl
      | some v => simp [mapMO, ih h2]

/-- Every element of a successful loop result comes from some input element. -/
theorem mapMO_mem {α β : Type} {f : α → Option β} :
    ∀ {xs : List α} {ys : List β}, mapMO f xs = some ys →
      ∀ y ∈ ys, ∃ x ∈ xs, f x = some y := by
  intro xs
  induction xs with
  | nil =>
    intro ys h y hy
    simp [mapMO] at h
    subst h; simp at hy
  | cons x xs ih =>
    intro ys h y hy
    unfold mapMO at h
    cases hfx : f x with
    | none => rw [hfx] at h; exact absurd h (by simp)
    | some z =>
      rw [hfx] at h
      cases hxs : mapMO f xs with
      | none => rw [hxs] at h; exact absurd h (by simp)
      | some zs =>
        rw [hxs] at h
        simp only [Option.some.injEq, Option.bind_eq_bind, Option.some_bind,
          Option.pure_def] at h
        subst h
        rcases List.mem_cons.mp hy with h1 | h2
        · exact ⟨x, List.mem_cons_self x xs, h1 ▸ hfx⟩
        · obtain ⟨x0, hx0, hfx0⟩ := ih hxs y h2
          exact ⟨x0, List.mem_cons_of_mem x hx0, hfx0⟩

/-- The store only grows: committing preserves membership. -/
theorem mem_commitRows (rows : List Row) :
    ∀ store : List Row, ∀ m ∈ store, m ∈ commitRows store rows := by
  induction rows with
  | nil => intro store m hm; exact hm
  | cons a as ih =>
    intro store m hm
    have hstep : m ∈ insertOrIgnore store a := by
      unfold insertOrIgnore
      split
      · exact hm
      · exact List.mem_append_left _ hm
    exact ih (insertOrIgnore store a) m hstep

/-- A row is settled in a store when a NULL-keyed row is itself present and
a non-NULL-keyed row has some row with its key present. -/
def settledIn (r : Row) (t : List Row) : Prop :=
  (r.message_id = Json.null → r ∈ t) ∧
  (r.message_id ≠ Json.null → ∃ y ∈ t, y.message_id = r.message_id)

/-- Settledness is monotone under store growth. -/
theorem settledIn_mono {r : Row} {t1 t2 : List Row}
    (hsub : ∀ m ∈ t1, m ∈ t2) (h : settledIn r t1) : settledIn r t2 := by
  constructor
  · intro hnull; exact hsub r (h.1 hnull)
  · intro hnn
    obtain ⟨y, hy, hid⟩ := h.2 hnn
    exact ⟨y, hsub y hy, hid⟩

/-- Inserting a row settles it. -/
theorem settledIn_insert_self (t : List Row) (r : Row) :
    settledIn r (insertOrIgnore t r) := by
  unfold insertOrIgnore
  split
  case isTrue h =>
    refine ⟨fun hnull => absurd hnull h.1, fun _ => h.2⟩
  case isFalse h =>
    constructor
    · intro _; exact List.mem_append_right _ (List.mem_singleton.mpr rfl)
    · intro _
      exact ⟨r, List.mem_append_right _ (List.mem_singleton.mpr rfl), rfl⟩

/-- After a commit, every committed row is settled in the result. -/
theorem settled_after (rows : List Row) :
    ∀ t : List Row, ∀ r ∈ rows, settledIn r (commitRows t rows) := by
  induction rows with
  | nil => intro t r hr; simp at hr
  | cons a as ih =>
    intro t r hr
    rcases List.mem_cons.mp hr with h1 | h2
    · subst h1
      have h0 := settledIn_insert_self t r
      exact settledIn_mono (mem_commitRows as (insertOrIgnore t r)) h0
    · exact ih (insertOrIgnore t a) r h2

/-- Committing rows that are each already settled does not change the set of
rows in the store (NULL-keyed rows are appended again, but they are
duplicates of rows already present). -/
theorem commit_mem_of_settled (rows : List Row) :
    ∀ t : List Row, (∀ r ∈ rows, settledIn r t) →
      ∀ m, m ∈ commitRows t rows ↔ m ∈ t := by
  induction rows with
  | nil => intro t _ m; exact Iff.rfl
  | cons a as ih =>
    intro t hset m
    have ha := hset a (List.mem_cons_self a as)
    by_cases hnull : a.message_id = Json.null
    · have hmem : a ∈ t := ha.1 hnull
      have hins : insertOrIgnore t a = t ++ [a] := by
        unfold insertOrIgnore
        rw [if_neg]
        intro hcon
        exact hcon.1 hnull
      have hsub : ∀ m ∈ t, m ∈ t ++ [a] := fun m hm => List.mem_append_left _ hm
      have hstep := ih (t ++ [a])
        (fun r hr => settledIn_mono hsub (hset r (List.mem_cons_of_mem a hr)))
      show m ∈ commitRows (insertOrIgnore t a) as ↔ m ∈ t
      rw [hins, hstep m]
      constructor
      · intro hm
        rcases List.mem_append.mp hm with h | h
        · exact h
        · rw [List.mem_singleton.mp h]; exact hmem
      · intro hm; exact List.mem_append_left _ hm
    · have hins : insertOrIgnore t a = t := by
        unfold insertOrIgnore
        rw [if_pos]
        exact ⟨hnull, ha.2 hnull⟩
      show m ∈ commitRows (insertOrIgnore t a) as ↔ m ∈ t
      rw [hins]
      exact ih t (fun r hr => hset r (List.mem_cons_of_mem a hr)) m

/-- A file preceded (or pre-seen) by an equal digest lands in the deleted
list. -/
theorem dedupScan_deleted {δ : Type} [DecidableEq δ] (digest : List Nat → δ) :
    ∀ (pre : List Thumb) (x : Thumb) (post : List Thumb) (seen : List δ),
      (digest x.content ∈ seen ∨ ∃ q ∈ pre, digest q.content = digest x.content) →
      x ∈ (dedupScan digest (pre ++ x :: post) seen).2 := by
  intro pre
  induction pre with
  | nil =>
    intro x post seen hpre
    have hx : digest x.content ∈ seen := by
      rcases hpre with h | ⟨q, hq, _⟩
      · exact h
      · simp at hq
    simp only [List.nil_append]
    unfold dedupScan
    rw [if_pos hx]
    exact List.mem_cons_self _ _
  | cons p pre1 ih =>
    intro x post seen hpre
    simp only [List.cons_append]
    unfold dedupScan
    by_cases hp : digest p.content ∈ seen
    · rw [if_pos hp]
      apply List.mem_cons_of_mem
      apply ih x post seen
      rcases hpre with h | ⟨q, hq, hqd⟩
      · exact Or.inl h
      · rcases List.mem_cons.mp hq with h1 | h2
        · exact Or.inl (by rw [← hqd, h1]; exact hp)
        · exact Or.inr ⟨q, h2, hqd⟩
    · rw [if_neg hp]
      apply ih x post (digest p.content :: seen)
      rcases hpre with h | ⟨q, hq, hqd⟩
      · exact Or.inl (List.mem_cons_of_mem _ h)
      · rcases List.mem_cons.mp hq with h1 | h2
        · exact Or.inl (by rw [← hqd, h1]; exact List.mem_cons_self _ _)
        · exact Or.inr ⟨q, h2, hqd⟩

/-- A file with no earlier equal digest (and digest not pre-seen) survives. -/
theorem dedupScan_kept {δ : Type} [DecidableEq δ] (digest : List Nat → δ) :
    ∀ (pre : List Thumb) (x : Thumb) (post : List Thumb) (seen : List δ),
      digest x.content ∉ seen →
      (∀ q ∈ pre, digest q.content ≠ digest x.content) →
      x ∈ (dedupScan digest (pre ++ x :: post) seen).1 := by
  intro pre
  induction pre with
  | nil =>
    intro x post seen hx _
    simp only [List.nil_append]
    unfold dedupScan
    rw [if_neg hx]
    exact List.mem_cons_self _ _
  | cons p pre1 ih =>
    intro x post seen hx hpre
    simp only [List.cons_append]
    unfold dedupScan
    by_cases hp : digest p.content ∈ seen
    · rw [if_pos hp]
      exact ih x post seen hx (fun q hq => hpre q (List.mem_cons_of_mem p hq))
    · rw [if_neg hp]
      apply List.mem_cons_of_mem
      apply ih x post (digest p.content :: seen)
      · intro hmem
        rcases List.mem_cons.mp hmem with h1 | h2
        · exact hpre p (List.mem_cons_self p pre1) h1.symm
        · exact hx h2
      · exact fun q hq => hpre q (List.mem_cons_of_mem p hq)

/-- No survivor digest was in the pre-seen set. -/
theorem dedupScan_uniq_notin {δ : Type} [DecidableEq δ] (digest : List Nat → δ) :
    ∀ (ts : List Thumb) (seen : List δ),
      ∀ u ∈ (dedupScan digest ts seen).1, digest u.content ∉ seen := by
  intro ts
  induction ts with
  | nil => intro seen u hu; simp [dedupScan] at hu
  | cons p t ih =>
    intro seen u hu
    unfold dedupScan at hu
    by_cases hp : digest p.content ∈ seen
    · rw [if_pos hp] at hu
      exact ih seen u hu
    · rw [if_neg hp] at hu
      rcases List.mem_cons.mp hu with h1 | h2
      · rw [h1]; exact hp
      · have := ih (digest p.content :: seen) u h2
        intro hmem
        exact this (List.mem_cons_of_mem _ hmem)

/-- Survivors have pairwise distinct digests. -/
theorem dedupScan_uniq_pairwise {δ : Type} [DecidableEq δ] (digest : List Nat → δ) :
    ∀ (ts : List Thumb) (seen : List δ),
      List.Pairwise (fun a b => digest a.content ≠ digest b.content)
        (dedupScan digest ts seen).1 := by
  intro ts
  induction ts with
  | nil => intro seen; simp [dedupScan]
  | cons p t ih =>
    intro seen
    unfold dedupScan
    by_cases hp : digest p.content ∈ seen
    · rw [if_pos hp]; exact ih seen
    · rw [if_neg hp]
      refine List.Pairwise.cons ?_ (ih (digest p.content :: seen))
      intro b hb hcon
      have := dedupScan_uniq_notin digest t (digest p.content :: seen) b hb
      exact this (by rw [← hcon]; exact List.mem_cons_self _ _)

/-- Insertion keeps the list a permutation of pushing in front. -/
theorem insertBySize_perm (t : Thumb) : ∀ l : List Thumb, List.Perm (insertBySize t l) (t :: l) := by
  intro l
  induction l with
  | nil => exact List.Perm.refl _
  | cons u us ih =>
    unfold insertBySize
    by_cases hc : u.size < t.size
    · rw [if_pos hc]
    · rw [if_neg hc]
      exact (List.Perm.cons u ih).trans (List.Perm.swap t u us)

/-- The stable descending sort is a permutation. -/
theorem sortBySizeDesc_perm (l : List Thumb) : List.Perm (sortBySizeDesc l) l := by
  have key : ∀ (m : List Thumb) (acc : List Thumb),
      List.Perm (m.foldl (fun a x => insertBySize x a) acc) (m ++ acc) := by
    intro m
    induction m with
    | nil => intro acc; exact List.Perm.refl _
    | cons x xs ih =>
      intro acc
      have h1 : List.Perm (xs.foldl (fun a x => insertBySize x a) (insertBySize x acc))
          (xs ++ insertBySize x acc) := ih (insertBySize x acc)
      have h2 : List.Perm (xs ++ insertBySize x acc) (xs ++ (x :: acc)) :=
        List.Perm.append_left xs (insertBySize_perm x acc)
      have h3 : List.Perm (xs ++ (x :: acc)) (x :: (xs ++ acc)) := List.perm_middle
      exact (h1.trans h2).trans h3
  have := key l []
  simpa using this

/-- The descending-size order on files. -/
def descBySize (x y : Thumb) : Prop := y.size ≤ x.size

/-- Insertion preserves descending sortedness. -/
theorem insertBySize_sorted (t : Thumb) :
    ∀ l : List Thumb, List.Pairwise descBySize l →
      List.Pairwise descBySize (insertBySize t l) := by
  intro l
  induction l with
  | nil => intro _; simp [insertBySize, List.Pairwise.cons]
  | cons u us ih =>
    intro h
    unfold insertBySize
    by_cases hc : u.size < t.size
    · rw [if_pos hc]
      refine List.Pairwise.cons ?_ h
      intro z hz
      rcases List.mem_cons.mp hz with h1 | h2
      · rw [h1]; exact Nat.le_of_lt hc
      · exact Nat.le_trans (List.rel_of_pairwise_cons h h2) (Nat.le_of_lt hc)
    · rw [if_neg hc]
      refine List.Pairwise.cons ?_ (ih (List.Pairwise.of_cons h))
      intro z hz
      have hz2 := (insertBySize_perm t us).mem_iff.mp hz
      rcases List.mem_cons.mp hz2 with h1 | h2
      · rw [h1]; exact Nat.le_of_not_lt hc
      · exact List.rel_of_pairwise_cons h h2

/-- The output of the stable sort is sorted by descending size. -/
theorem sortBySizeDesc_sorted (l : List Thumb) :
    List.Pairwise descBySize (sortBySizeDesc l) := by
  have key : ∀ (m : List Thumb) (acc : List Thumb),
      List.Pairwise descBySize acc →
      List.Pairwise descBySize (m.foldl (fun a x => insertBySize x a) acc) := by
    intro m
    induction m with
    | nil => intro acc h; exact h
    | cons x xs ih =>
      intro acc h
      exact ih (insertBySize x acc) (insertBySize_sorted x acc h)
  exact key l [] List.Pairwise.nil

/-! Helper lemmas for the metadata canonicalizer. -/

/-- A key absent from the raw object reads as `None`. -/
theorem metaGet_eq_null (m : List (String × Json)) (k : String)
    (h : List.lookup k m = none) : metaGet m k = Json.null := by
  simp [metaGet, metaGetD, h]

/-- Falsy left operand of Python `or` yields the right operand. -/
theorem pyOr_falsy_left {a : Json} (b : Json) (h : truthy a = false) :
    pyOr a b = b := by
  simp [pyOr, h]

/-- Falsy timestamps convert to `None`. -/
theorem iso_from_ts_falsy (j : Json) (h : truthy j = false) :
    iso_from_ts j = some Json.null := by
  simp [iso_from_ts, h]

/-- A falsy duration makes `iso_end` return `None`. -/
theorem iso_end_falsy_duration (meta : List (String × Json))
    (h : truthy (metaGet meta ("duration")) = false) :
    iso_end meta = some Json.null := by
  simp [iso_end, h]

/-- A falsy start timestamp makes `iso_end` return `None`. -/
theorem iso_end_falsy_start (meta : List (String × Json))
    (h : truthy (pyOr (metaGet meta ("release_timestamp"))
      (metaGet meta ("timestamp"))) = false) :
    iso_end meta = some Json.null := by
  simp [iso_end, h]

/-- Structure of a successful `write_meta_json` run: the record is the
canonical 28-entry list, with the fallible fields bound to their
derivations. -/
theorem write_meta_json_spec (meta : List (String × Json)) (sha now : String)
    (outRec : List (String × Json)) (dd : Option String)
    (h : write_meta_json meta sha now = some (outRec, dd)) :
    ∃ idv created published durS startT endT,
      List.lookup ("id") meta = some idv ∧
      iso_from_ts (pyOr (metaGet meta ("release_timestamp"))
        (metaGet meta ("timestamp"))) = some created ∧
      iso_from_ts (metaGet meta ("upload_date")) = some published ∧
      durationString meta = some durS ∧
      iso_from_ts (pyOr (metaGet meta ("release_timestamp"))
        (metaGet meta ("timestamp"))) = some startT ∧
      iso_end meta = some endT ∧
      outRec =
        [("stream_id", Json.null),
         ("vod_id", Json.str ("v" ++ pyStr idv)),
         ("title", metaGet meta ("title")),
         ("created_at", created),
         ("published_at", published),
         ("thumbnail_url", metaGet meta ("thumbnail")),
         ("thumbnail_filename", Json.str "thumbnail_main.jpg"),
         ("url", metaGet meta ("webpage_url")),
         ("downloaded_at", Json.str now),
         ("vod_sha256", Json.str sha),
         ("duration", metaGet meta ("duration")),
         ("duration_string", durS),
         ("start_time", startT),
         ("end_time", endT),
         ("initial_title", metaGet meta ("title")),
         ("language", metaGet meta ("language")),
         ("origin", Json.str "youtube"),
         ("like_count", metaGet meta ("like_count")),
         ("comment_count", metaGet meta ("comment_count")),
         ("view_count", metaGet meta ("view_count")),
         ("availability", metaGet meta ("availability")),
         ("resolution", metaGet meta ("resolution")),
         ("fps", metaGet meta ("fps")),
         ("channel", metaGet meta ("channel")),
         ("channel_follower_count", metaGet meta ("channel_follower_count")),
         ("channel_is_verified", metaGet meta ("channel_is_verified")),
         ("description", metaGet meta ("description")),
         ("tags", metaGet meta ("tags"))] := by
  unfold write_meta_json at h
  cases h1 : List.lookup ("id") meta with
  | none => rw [h1] at h; exact absurd h (by simp)
  | some idv =>
  rw [h1] at h
  cases h2 : iso_from_ts (pyOr (metaGet meta ("release_timestamp"))
      (metaGet meta ("timestamp"))) with
  | none => rw [h2] at h; exact absurd h (by simp)
  | some created =>
  rw [h2] at h
  cases h3 : iso_from_ts (metaGet meta ("upload_date")) with
  | none => rw [h3] at h; exact absurd h (by simp)
  | some published =>
  rw [h3] at h
  cases h4 : durationString meta with
  | none => rw [h4] at h; exact absurd h (by simp)
  | some durS =>
  rw [h4] at h
  cases h6 : iso_end meta with
  | none => rw [h6] at h; exact absurd h (by simp)
  | some endT =>
  rw [h6] at h
  cases h7 : descOut (metaGet meta ("description")) with
  | none => rw [h7] at h; exact absurd h (by simp)
  | some dd0 =>
  rw [h7] at h
  simp only [Option.bind_eq_bind, Option.some_bind, Option.pure_def,
    Option.some.injEq, Prod.mk.injEq] at h
  exact ⟨idv, created, published, durS, created, endT, rfl, rfl, rfl, rfl, rfl,
    rfl, h.1.symm⟩

/-! Claim analyses. -/

/-- Claim C5, counterexample: the claim's enumeration (in the tuple order
text, paid-message, paid-sticker, sticker, viewer-engagement) assigns
`sticker` to the third kind key, but `liveChatPaidStickerRenderer` contains
`Paid`, which is tested first, so the code classifies it as `paid`; the
enumeration also lists six outcomes for five keys. -/
theorem c5_counterexample :
    message_type ("liveChatPaidStickerRenderer") = "paid" ∧
    message_type ("liveChatPaidStickerRenderer") ≠ "sticker" := by
  exact ⟨rfl, by decide⟩

/-- Claim C5, amended: `message_type` is a pure total function of the kind
key — contains `Paid` gives paid, else contains `Sticker` gives sticker,
else contains `ViewerEngagement` gives system, else text (case-sensitive) —
and the five known keys classify to text, paid, paid, sticker, system
respectively; every key classifies into the four-value enumeration, and the
match is case-sensitive (`paid` in lowercase does not trigger the paid
branch). -/
theorem c5_message_type_total :
    message_type ("liveChatTextMessageRenderer") = "text" ∧
    message_type ("liveChatPaidMessageRenderer") = "paid" ∧
    message_type ("liveChatPaidStickerRenderer") = "paid" ∧
    message_type ("liveChatStickerRenderer") = "sticker" ∧
    message_type ("liveChatViewerEngagementMessageRenderer") = "system" ∧
    (∀ k : String, message_type k = "paid" ∨ message_type k = "sticker" ∨
      message_type k = "system" ∨ message_type k = "text") ∧
    message_type ("paidRenderer") = "text" := by
  refine ⟨rfl, rfl, rfl, rfl, rfl, ?_, by decide⟩
  intro k
  unfold message_type
  split_ifs <;> simp

/-- Claim C9: `write_meta_json` subscripts `meta["id"]` directly, so a raw
metadata object lacking `id` raises `KeyError` and neither the canonical
record nor the description file is produced. -/
theorem c9_missing_id_raises (meta : List (String × Json)) (sha now : String)
    (h : List.lookup ("id") meta = none) :
    write_meta_json meta sha now = none := by
  unfold write_meta_json
  rw [h]
  rfl

/-- Claim C9, witness: the empty raw object lacks `id` and the run fails. -/
theorem c9_witness :
    List.lookup ("id") ([] : List (String × Json)) = none ∧
    write_meta_json [] ("sha") ("now") = none :=
  ⟨rfl, c9_missing_id_raises [] ("sha") ("now") rfl⟩

/-- Claim C3: a malformed top-level object (a line whose parse fails, which
is also what the array form degenerates to when an element is malformed)
makes the whole run raise before anything is committed; the `none` result
models the exception thrown before `sqlite3.connect`, leaving the store as
it was. -/
theorem c3_malformed_dump_aborts (ls : List (Option Json)) (store : List Row)
    (h : none ∈ ls) :
    chat_json_to_sqlite (RawChatDump.lines ls) store = none := by
  have hit : iter_top_objs (RawChatDump.lines ls) = mapMO id ls := rfl
  unfold chat_json_to_sqlite
  rw [hit, mapMO_eq_none_of_mem ls h]
  rfl

/-- Claim C3, witness: one good line followed by one malformed line. -/
theorem c3_witness :
    (none ∈ [some (Json.obj []), (none : Option Json)]) ∧
    chat_json_to_sqlite
      (RawChatDump.lines [some (Json.obj []), none]) [] = none :=
  ⟨by simp, c3_malformed_dump_aborts [some (Json.obj []), none] [] (by simp)⟩

/-- Claim C8, counterexample: with `release_timestamp = 1700000000` and
`duration = 0` both present, the claim requires `end_time` to be the ISO
rendering of `1700000000 + 0`, but the code tests Python truthiness
(`if s and d`), `0` is falsy, and `end_time` is null. -/
theorem c8_counterexample :
    iso_end c8meta = some Json.null ∧
    some Json.null ≠ some (Json.str ("2023-11-14T22:13:20Z")) ∧
    List.lookup ("duration") c8meta = some (Json.int 0) ∧
    List.lookup ("release_timestamp") c8meta = some (Json.int 1700000000) := by
  exact ⟨rfl, by decide, rfl, rfl⟩

/-- Claim C8, amended: `end_time` is null unless both the start timestamp
(release timestamp, else upload timestamp) and the duration are present and
truthy (nonzero, nonempty); when both are truthy and parse as integers,
`end_time` is the ISO-8601 UTC rendering of start + duration; in particular
start 1700000000 with duration 3600 yields the instant exactly one hour
after the rendering of the start. -/
theorem c8_end_time_rule (meta : List (String × Json)) :
    (truthy (pyOr (metaGet meta ("release_timestamp"))
        (metaGet meta ("timestamp"))) = false ∨
      truthy (metaGet meta ("duration")) = false →
      iso_end meta = some Json.null) ∧
    (∀ si di : Int,
      truthy (pyOr (metaGet meta ("release_timestamp"))
        (metaGet meta ("timestamp"))) = true →
      truthy (metaGet meta ("duration")) = true →
      pyInt (pyOr (metaGet meta ("release_timestamp"))
        (metaGet meta ("timestamp"))) = some si →
      pyInt (metaGet meta ("duration")) = some di →
      iso_end meta = iso_from_ts (Json.int (si + di))) ∧
    (iso_end [("release_timestamp", Json.int 1700000000),
        ("duration", Json.int 3600)] =
      some (Json.str ("2023-11-14T23:13:20Z")) ∧
     iso_from_ts (Json.int 1700000000) =
      some (Json.str ("2023-11-14T22:13:20Z"))) := by
  refine ⟨?_, ?_, rfl, rfl⟩
  · intro h
    rcases h with h | h
    · exact iso_end_falsy_start meta h
    · exact iso_end_falsy_duration meta h
  · intro si di hts hd hsi hdi
    simp [iso_end, hts, hd, hsi, hdi]

/-- Claim C8, witness: a missing start gives null; truthy integer fields
give the sum. -/
theorem c8_witness :
    iso_end [("duration", Json.int 5)] = some Json.null ∧
    iso_end [("release_timestamp", Json.int 10), ("duration", Json.int 5)] =
      iso_from_ts (Json.int (10 + 5)) :=
  ⟨(c8_end_time_rule [("duration", Json.int 5)]).1 (Or.inl (by decide)),
   (c8_end_time_rule [("release_timestamp", Json.int 10),
      ("duration", Json.int 5)]).2.1 10 5 (by decide) (by decide)
      (by decide) (by decide)⟩

/-- Claim C10, counterexample: the claim says that whenever the start
timestamp *or* the duration equals 0 all three of `end_time`, `created_at`,
`start_time` are null; but with `timestamp = 1700000000` and `duration = 0`
the duration is zero while `created_at` is the rendered start instant, not
null. -/
theorem c10_counterexample :
    (write_meta_json c10meta ("s") ("n")).map
        (fun p => List.lookup ("created_at") p.1) =
      some (some (Json.str ("2023-11-14T22:13:20Z"))) ∧
    some (some (Json.str ("2023-11-14T22:13:20Z"))) ≠ some (some Json.null) ∧
    List.lookup ("duration") c10meta = some (Json.int 0) := by
  exact ⟨rfl, by decide, rfl⟩

/-- Claim C10, amended: `iso_from_ts` and `iso_from_usec` return null for
`0` and for the empty string; consequently, when *both* start-timestamp
fields are falsy (0, empty, or absent), `created_at`, `start_time` and
`end_time` are all null even if the fields are present, and when the
duration is falsy `end_time` is null (but `created_at`/`start_time` are
unaffected by the duration). -/
theorem c10_zero_treated_as_absent (meta : List (String × Json))
    (sha now : String) (outRec : List (String × Json)) (dd : Option String)
    (h : write_meta_json meta sha now = some (outRec, dd)) :
    iso_from_ts (Json.int 0) = some Json.null ∧
    iso_from_ts (Json.str "") = some Json.null ∧
    iso_from_usec (Json.int 0) = some Json.null ∧
    iso_from_usec (Json.str "") = some Json.null ∧
    (truthy (metaGet meta ("release_timestamp")) = false →
     truthy (metaGet meta ("timestamp")) = false →
      List.lookup ("created_at") outRec = some Json.null ∧
      List.lookup ("start_time") outRec = some Json.null ∧
      List.lookup ("end_time") outRec = some Json.null) ∧
    (truthy (metaGet meta ("duration")) = false →
      List.lookup ("end_time") outRec = some Json.null) := by
  obtain ⟨idv, created, published, durS, startT, endT, hid, hc, hp, hd, hs,
    he, hrec⟩ := write_meta_json_spec meta sha now outRec dd h
  subst hrec
  refine ⟨rfl, rfl, rfl, rfl, ?_, ?_⟩
  · intro hr ht
    have hor : truthy (pyOr (metaGet meta ("release_timestamp"))
        (metaGet meta ("timestamp"))) = false := by
      rw [pyOr_falsy_left _ hr]; exact ht
    have hnull := iso_from_ts_falsy _ hor
    rw [hnull] at hc hs
    have hcn : created = Json.null := Option.some.inj hc.symm
    have hsn : startT = Json.null := Option.some.inj hs.symm
    have hen : endT = Json.null := by
      have := iso_end_falsy_start meta hor
      rw [this] at he
      exact Option.some.inj he.symm
    refine ⟨?_, ?_, ?_⟩
    · show some created = some Json.null
      rw [hcn]
    · show some startT = some Json.null
      rw [hsn]
    · show some endT = some Json.null
      rw [hen]
  · intro hdur
    have hen : endT = Json.null := by
      have := iso_end_falsy_duration meta hdur
      rw [this] at he
      exact Option.some.inj he.symm
    show some endT = some Json.null
    rw [hen]

/-- Claim C10, witness: the run on zero timestamp and duration fields. -/
theorem c10_witness :
    List.lookup ("created_at") c10wrec = some Json.null ∧
    List.lookup ("end_time") c10wrec = some Json.null :=
  ⟨((c10_zero_treated_as_absent c10wmeta ("s") ("n") c10wrec none
      (by rfl)).2.2.2.2.1 (by rfl) (by rfl)).1,
   (c10_zero_treated_as_absent c10wmeta ("s") ("n") c10wrec none
      (by rfl)).2.2.2.2.2 (by rfl)⟩

/-- Claim C7, counterexample: with raw input lacking both `duration_string`
and `duration`, the canonical `duration_string` field is not null — it
defaults to the rendered `str(timedelta(0))`, i.e. `0:00:00`. -/
theorem c7_counterexample :
    List.lookup ("duration_string") c7meta = none ∧
    List.lookup ("duration") c7meta = none ∧
    (write_meta_json c7meta ("sha") ("now")).map
        (fun p => List.lookup ("duration_string") p.1) =
      some (some (Json.str ("0:00:00"))) ∧
    some (some (Json.str ("0:00:00"))) ≠ some (some Json.null) := by
  exact ⟨rfl, rfl, rfl, by decide⟩

/-- Claim C7, amended: whenever `write_meta_json` succeeds, every canonical
field backed by an optional raw key is present and explicitly null when its
raw key is missing — except `duration_string`, which is never null: when
both `duration_string` and `duration` are missing it defaults to the
rendered zero duration `0:00:00`. -/
theorem c7_null_fields (meta : List (String × Json)) (sha now : String)
    (outRec : List (String × Json)) (dd : Option String)
    (h : write_meta_json meta sha now = some (outRec, dd)) :
    (List.lookup ("title") meta = none →
      List.lookup ("title") outRec = some Json.null ∧
      List.lookup ("initial_title") outRec = some Json.null) ∧
    (List.lookup ("thumbnail") meta = none →
      List.lookup ("thumbnail_url") outRec = some Json.null) ∧
    (List.lookup ("webpage_url") meta = none →
      List.lookup ("url") outRec = some Json.null) ∧
    (List.lookup ("upload_date") meta = none →
      List.lookup ("published_at") outRec = some Json.null) ∧
    (List.lookup ("duration") meta = none →
      List.lookup ("duration") outRec = some Json.null) ∧
    (List.lookup ("language") meta = none →
      List.lookup ("language") outRec = some Json.null) ∧
    (List.lookup ("like_count") meta = none →
      List.lookup ("like_count") outRec = some Json.null) ∧
    (List.lookup ("comment_count") meta = none →
      List.lookup ("comment_count") outRec = some Json.null) ∧
    (List.lookup ("view_count") meta = none →
      List.lookup ("view_count") outRec = some Json.null) ∧
    (List.lookup ("availability") meta = none →
      List.lookup ("availability") outRec = some Json.null) ∧
    (List.lookup ("resolution") meta = none →
      List.lookup ("resolution") outRec = some Json.null) ∧
    (List.lookup ("fps") meta = none →
      List.lookup ("fps") outRec = some Json.null) ∧
    (List.lookup ("channel") meta = none →
      List.lookup ("channel") outRec = some Json.null) ∧
    (List.lookup ("channel_follower_count") meta = none →
      List.lookup ("channel_follower_count") outRec = some Json.null) ∧
    (List.lookup ("channel_is_verified") meta = none →
      List.lookup ("channel_is_verified") outRec = some Json.null) ∧
    (List.lookup ("description") meta = none →
      List.lookup ("description") outRec = some Json.null) ∧
    (List.lookup ("tags") meta = none →
      List.lookup ("tags") outRec = some Json.null) ∧
    (List.lookup ("release_timestamp") meta = none →
     List.lookup ("timestamp") meta = none →
      List.lookup ("created_at") outRec = some Json.null ∧
      List.lookup ("start_time") outRec = some Json.null ∧
      List.lookup ("end_time") outRec = some Json.null) ∧
    (List.lookup ("duration_string") meta = none →
     List.lookup ("duration") meta = none →
      List.lookup ("duration_string") outRec = some (Json.str ("0:00:00"))) := by
  obtain ⟨idv, created, published, durS, startT, endT, hid, hc, hp, hd, hs,
    he, hrec⟩ := write_meta_json_spec meta sha now outRec dd h
  subst hrec
  refine ⟨?_, ?_, ?_, ?_, ?_, ?_, ?_, ?_, ?_, ?_, ?_, ?_, ?_, ?_, ?_, ?_, ?_,
    ?_, ?_⟩
  · intro habs
    rw [metaGet_eq_null meta ("title") habs]
    exact ⟨rfl, rfl⟩
  · intro habs
    rw [metaGet_eq_null meta ("thumbnail") habs]
    rfl
  · intro habs
    rw [metaGet_eq_null meta ("webpage_url") habs]
    rfl
  · intro habs
    have hz : iso_from_ts (metaGet meta ("upload_date")) = some Json.null := by
      rw [metaGet_eq_null meta ("upload_date") habs]
      rfl
    rw [hz] at hp
    have hpn : published = Json.null := Option.some.inj hp.symm
    show some published = some Json.null
    rw [hpn]
  · intro habs
    rw [metaGet_eq_null meta ("duration") habs]
    rfl
  · intro habs
    rw [metaGet_eq_null meta ("language") habs]
    rfl
  · intro habs
    rw [metaGet_eq_null meta ("like_count") habs]
    rfl
  · intro habs
    rw [metaGet_eq_null meta ("comment_count") habs]
    rfl
  · intro habs
    rw [metaGet_eq_null meta ("view_count") habs]
    rfl
  · intro habs
    rw [metaGet_eq_null meta ("availability") habs]
    rfl
  · intro habs
    rw [metaGet_eq_null meta ("resolution") habs]
    rfl
  · intro habs
    rw [metaGet_eq_null meta ("fps") habs]
    rfl
  · intro habs
    rw [metaGet_eq_null meta ("channel") habs]
    rfl
  · intro habs
    rw [metaGet_eq_null meta ("channel_follower_count") habs]
    rfl
  · intro habs
    rw [metaGet_eq_null meta ("channel_is_verified") habs]
    rfl
  · intro habs
    rw [metaGet_eq_null meta ("description") habs]
    rfl
  · intro habs
    rw [metaGet_eq_null meta ("tags") habs]
    rfl
  · intro habs1 habs2
    have hor : truthy (pyOr (metaGet meta ("release_timestamp"))
        (metaGet meta ("timestamp"))) = false := by
      rw [metaGet_eq_null meta ("release_timestamp") habs1,
        metaGet_eq_null meta ("timestamp") habs2]
      rfl
    have hnull := iso_from_ts_falsy _ hor
    rw [hnull] at hc hs
    have hcn : created = Json.null := Option.some.inj hc.symm
    have hsn : startT = Json.null := Option.some.inj hs.symm
    have hen : endT = Json.null := by
      have := iso_end_falsy_start meta hor
      rw [this] at he
      exact Option.some.inj he.symm
    refine ⟨?_, ?_, ?_⟩
    · show some created = some Json.null
      rw [hcn]
    · show some startT = some Json.null
      rw [hsn]
    · show some endT = some Json.null
      rw [hen]
  · intro habs1 habs2
    have hz : durationString meta = some (Json.str ("0:00:00")) := by
      unfold durationString
      rw [metaGet_eq_null meta ("duration_string") habs1,
        metaGet_eq_null meta ("duration") habs2]
      rfl
    rw [hz] at hd
    have hdn : durS = Json.str ("0:00:00") := Option.some.inj hd.symm
    show some durS = some (Json.str ("0:00:00"))
    rw [hdn]

/-- Claim C7, witness: a raw object with only an id — the canonical title is
explicitly null, and the run succeeds. -/
theorem c7_witness :
    List.lookup ("title") c10wrec = some Json.null ∧
    List.lookup ("tags") c10wrec = some Json.null :=
  ⟨((c7_null_fields c10wmeta ("s") ("n") c10wrec none (by rfl)).1 rfl).1,
   (c7_null_fields c10wmeta ("s") ("n") c10wrec none (by rfl)).2.2.2.2.2.2.2.2.2.2.2.2.2.2.2.2.1 rfl⟩

/-- A successful subscript implies `in`-membership of the key. -/
theorem pySubscript_some_contains {j : Json} {k : String} {v : Json}
    (h : pySubscript j k = some v) : pyContains j k = some true := by
  cases j with
  | obj kvs =>
    simp only [pySubscript] at h
    simp only [pyContains, Option.some.injEq]
    induction kvs with
    | nil => simp [List.lookup] at h
    | cons kv rest ih =>
      by_cases hk : k = kv.fst
      · simp [hk]
      · have hbeq : (k == kv.fst) = false := beq_eq_false_iff_ne.mpr hk
        obtain ⟨k0, v0⟩ := kv
        simp only [List.lookup] at h
        simp only at hbeq
        rw [hbeq] at h
        simp only [List.any_cons]
        have := ih h
        rw [this]
        simp
  | null => simp [pySubscript] at h
  | bool b => simp [pySubscript] at h
  | int n => simp [pySubscript] at h
  | str s => simp [pySubscript] at h
  | arr xs => simp [pySubscript] at h

/-- Every extracted row carries `offset_ms // 1000` in its offset column. -/
theorem buildRow_offset (ren : Json) (rkey : String) (pinned : Bool)
    (off : Int) (row : Row) (h : buildRow ren rkey pinned off = some row) :
    row.message_sent_offset = Int.fdiv off 1000 := by
  simp only [buildRow, Option.bind_eq_bind, Option.bind_eq_some,
    Option.pure_def, Option.some.injEq] at h
  obtain ⟨mid, hmid, sent, hsent, author, hauthor, aid, haid, logo, hlogo,
    color, hcolor, body, hbody, don, hdon, badges, hbadges, hrow⟩ := h
  rw [← hrow]

/-- Rows contributed by one action carry the loop's offset. -/
theorem processAct_offset (off : Int) (act : Json) (l : List Row)
    (h : processAct off act = some l) :
    ∀ r ∈ l, r.message_sent_offset = Int.fdiv off 1000 := by
  intro r hr
  unfold processAct at h
  cases hx : extract_renderer act with
  | none => rw [hx] at h; exact absurd h (by simp)
  | some o =>
    rw [hx] at h
    cases o with
    | none =>
      simp only [Option.bind_eq_bind, Option.some_bind, Option.pure_def,
        Option.some.injEq] at h
      rw [← h] at hr
      simp at hr
    | some t =>
      obtain ⟨ren, rkey, pinned⟩ := t
      simp only [Option.bind_eq_bind, Option.some_bind] at h
      cases hb : buildRow ren rkey pinned off with
      | none => rw [hb] at h; exact absurd h (by simp)
      | some row =>
        rw [hb] at h
        simp only [Option.bind_eq_bind, Option.some_bind, Option.pure_def,
          Option.some.injEq] at h
        rw [← h] at hr
        rw [List.mem_singleton.mp hr]
        exact buildRow_offset ren rkey pinned off row hb

/-- All rows of one top object carry the offset read once for the object. -/
theorem processTop_offset (top rca : Json) (n : Int) (rows : List Row)
    (hsub : pySubscript top ("replayChatItemAction") = some rca)
    (hoff : readOffset rca = some n)
    (h : processTop top = some rows) :
    ∀ r ∈ rows, r.message_sent_offset = Int.fdiv n 1000 := by
  intro r hr
  unfold processTop at h
  rw [pySubscript_some_contains hsub] at h
  simp only [Option.bind_eq_bind, Option.some_bind, if_true] at h
  rw [hsub] at h
  simp only [Option.some_bind] at h
  rw [hoff] at h
  simp only [Option.some_bind] at h
  cases hacts : pySubscript rca ("actions") with
  | none => rw [hacts] at h; exact absurd h (by simp)
  | some actsJ =>
    rw [hacts] at h
    simp only [Option.some_bind] at h
    cases hit : pyIterate actsJ with
    | none => rw [hit] at h; exact absurd h (by simp)
    | some acts =>
      rw [hit] at h
      simp only [Option.some_bind] at h
      cases hm : mapMO (processAct n) acts with
      | none => rw [hm] at h; exact absurd h (by simp)
      | some rowss =>
        rw [hm] at h
        simp only [Option.some_bind, Option.pure_def, Option.some.injEq] at h
        rw [← h] at hr
        obtain ⟨l, hl, hrl⟩ := List.mem_flatten.mp hr
        obtain ⟨act, hact, hpa⟩ := mapMO_mem hm l hl
        exact processAct_offset n act l hpa r hrl

/-- Claim C2, counterexample: a present but non-integer
`videoOffsetTimeMsec` is not replaced by 0 — `int()` raises `ValueError`
and the whole parse fails, contrary to `reading the video offset never
fails`. -/
theorem c2_counterexample :
    readOffset (Json.obj [("videoOffsetTimeMsec", Json.str "abc")]) = none ∧
    chat_json_to_sqlite c2dump [] = none := by
  exact ⟨rfl, rfl⟩

/-- Claim C2, amended: the offset read defaults to 0 only when the field is
absent; a present value is passed to `int()`, so rows carry
`floor(offset_ms / 1000)` when it parses, and the whole top object fails
when it does not. -/
theorem c2_offset_rule :
    (∀ kvs : List (String × Json),
      List.lookup ("videoOffsetTimeMsec") kvs = none →
      readOffset (Json.obj kvs) = some 0) ∧
    (∀ (kvs : List (String × Json)) (v : Json),
      List.lookup ("videoOffsetTimeMsec") kvs = some v →
      readOffset (Json.obj kvs) = pyInt v) ∧
    (∀ (top rca : Json) (n : Int) (rows : List Row),
      pySubscript top ("replayChatItemAction") = some rca →
      readOffset rca = some n →
      processTop top = some rows →
      ∀ r ∈ rows, r.message_sent_offset = Int.fdiv n 1000) ∧
    (∀ top rca : Json,
      pySubscript top ("replayChatItemAction") = some rca →
      readOffset rca = none →
      processTop top = none) := by
  refine ⟨?_, ?_, ?_, ?_⟩
  · intro kvs h
    unfold readOffset
    simp [pyGetD, metaGetD, h]
    rfl
  · intro kvs v h
    unfold readOffset
    simp [pyGetD, metaGetD, h]
  · exact processTop_offset
  · intro top rca hsub hoff
    unfold processTop
    rw [pySubscript_some_contains hsub]
    simp only [Option.bind_eq_bind, Option.some_bind, if_true]
    rw [hsub]
    simp only [Option.some_bind]
    rw [hoff]
    rfl

/-- Claim C2, witness: absent offset reads 0; a parsed offset reaches the
row in floored seconds; an unparseable offset fails the object. -/
theorem c2_witness :
    readOffset (Json.obj [("actions", Json.arr [])]) = some 0 ∧
    readOffset (Json.obj [("videoOffsetTimeMsec", Json.int 5500)]) =
      pyInt (Json.int 5500) ∧
    c4row.message_sent_offset = Int.fdiv 5500 1000 ∧
    processTop (Json.obj [("replayChatItemAction", Json.obj
      [("videoOffsetTimeMsec", Json.str "abc"),
       ("actions", Json.arr [])])]) = none :=
  ⟨c2_offset_rule.1 [("actions", Json.arr [])] rfl,
   c2_offset_rule.2.1 [("videoOffsetTimeMsec", Json.int 5500)]
     (Json.int 5500) rfl,
   c2_offset_rule.2.2.1 c4top (Json.obj
       [("videoOffsetTimeMsec", Json.str "5500"),
        ("actions", Json.arr
          [Json.obj [("addChatItemAction", Json.obj
            [("item", Json.obj
              [("liveChatTextMessageRenderer", Json.obj
                [("id", Json.str "m1"),
                 ("message", Json.obj [("runs", Json.arr
                   [Json.obj [("text", Json.str "hi")]])])])])])]])])
     5500 [c4row] rfl rfl rfl c4row (by simp),
   c2_offset_rule.2.2.2 (Json.obj [("replayChatItemAction", Json.obj
       [("videoOffsetTimeMsec", Json.str "abc"),
        ("actions", Json.arr [])])])
     (Json.obj [("videoOffsetTimeMsec", Json.str "abc"),
       ("actions", Json.arr [])]) rfl rfl⟩

/-- Unfolding of `extract_renderer` on an `add-item` wrapper: the scan is
over the item's own keys in document order. -/
theorem extract_renderer_item_eq (kvs : List (String × Json)) :
    extract_renderer (itemWrapper kvs) =
      (match (kvs.map fun kv => Json.str kv.fst).find? isRendererKeyJ with
       | some (Json.str k) =>
         (List.lookup k kvs).bind (fun ren => some (some (ren, k, false)))
       | some _ => none
       | none => some none) := rfl

/-- Unfolding of `extract_renderer` on a banner wrapper. -/
theorem extract_renderer_banner_eq (kvs : List (String × Json)) :
    extract_renderer (bannerWrapper kvs) =
      (match (kvs.map fun kv => Json.str kv.fst).find? isRendererKeyJ with
       | some (Json.str k) =>
         (List.lookup k kvs).bind (fun ren => some (some (ren, k, true)))
       | some _ => none
       | none => some none) := rfl

/-- No renderer kind key among the entries: the key scan finds nothing. -/
theorem find_renderer_none (kvs : List (String × Json))
    (h : ∀ kv ∈ kvs, RENDERER_KEYS.contains kv.fst = false) :
    (kvs.map fun kv => Json.str kv.fst).find? isRendererKeyJ = none := by
  rw [List.find?_eq_none]
  intro x hx
  obtain ⟨kv, hkv, rfl⟩ := List.mem_map.mp hx
  simp only [isRendererKeyJ]
  simpa using h kv hkv

/-- The scan returns the first entry key (in document order) that is a
renderer kind key. -/
theorem find_renderer_first (pre : List (String × Json)) (k : String)
    (v : Json) (post : List (String × Json))
    (hpre : ∀ kv ∈ pre, RENDERER_KEYS.contains kv.fst = false)
    (hk : RENDERER_KEYS.contains k = true) :
    ((pre ++ (k, v) :: post).map fun kv => Json.str kv.fst).find?
      isRendererKeyJ = some (Json.str k) := by
  induction pre with
  | nil =>
    simp only [List.nil_append, List.map_cons]
    rw [List.find?_cons_of_pos]
    simpa [isRendererKeyJ] using hk
  | cons p pre1 ih =>
    simp only [List.cons_append, List.map_cons]
    rw [List.find?_cons_of_neg]
    · exact ih (fun kv hkv => hpre kv (List.mem_cons_of_mem p hkv))
    · simpa [isRendererKeyJ] using hpre p (List.mem_cons_self p pre1)

/-- Looking up the first matching key returns its own value, because every
earlier key differs from it. -/
theorem lookup_first_match (pre : List (String × Json)) (k : String)
    (v : Json) (post : List (String × Json))
    (hne : ∀ kv ∈ pre, kv.fst ≠ k) :
    List.lookup k (pre ++ (k, v) :: post) = some v := by
  induction pre with
  | nil => simp [List.lookup]
  | cons p pre1 ih =>
    have hpk : (k == p.fst) = false :=
      beq_eq_false_iff_ne.mpr
        (fun he => hne p (List.mem_cons_self p pre1) he.symm)
    obtain ⟨p1, p2⟩ := p
    simp only [List.cons_append, List.lookup]
    simp only at hpk
    rw [hpk]
    exact ih (fun kv hkv => hne kv (List.mem_cons_of_mem _ hkv))

/-- Claim C1, counterexample: an item carrying both the paid-message key and
the text key, paid-message first in document order.  The fixed-priority rule
of the claim (tuple order, text first) would pick the text renderer; the
code scans the item's own keys and picks the paid-message renderer. -/
theorem c1_counterexample :
    extract_renderer c1action =
      some (some (Json.obj [("id", Json.str "p")],
        "liveChatPaidMessageRenderer", false)) ∧
    extract_renderer c1action ≠
      some (some (Json.obj [("id", Json.str "t")],
        "liveChatTextMessageRenderer", false)) := by
  exact ⟨rfl, by decide⟩

/-- Claim C1, amended: for an action with more than one (or any number of)
renderer kind keys, `extract_renderer` resolves to exactly one triple whose
winner is the *first key of the item object in its own key order* that is
one of the five known renderer kinds — not the tuple-priority order; an
action whose item carries none of the five keys yields no row; banner
actions behave identically with pinned = true. -/
theorem c1_first_document_key_wins :
    (∀ (pre : List (String × Json)) (k : String) (v : Json)
        (post : List (String × Json)),
      (∀ kv ∈ pre, RENDERER_KEYS.contains kv.fst = false) →
      RENDERER_KEYS.contains k = true →
      extract_renderer (itemWrapper (pre ++ (k, v) :: post)) =
        some (some (v, k, false))) ∧
    (∀ (pre : List (String × Json)) (k : String) (v : Json)
        (post : List (String × Json)),
      (∀ kv ∈ pre, RENDERER_KEYS.contains kv.fst = false) →
      RENDERER_KEYS.contains k = true →
      extract_renderer (bannerWrapper (pre ++ (k, v) :: post)) =
        some (some (v, k, true))) ∧
    (∀ kvs : List (String × Json),
      (∀ kv ∈ kvs, RENDERER_KEYS.contains kv.fst = false) →
      extract_renderer (itemWrapper kvs) = some none) ∧
    (∀ kvs : List (String × Json),
      (∀ kv ∈ kvs, RENDERER_KEYS.contains kv.fst = false) →
      extract_renderer (bannerWrapper kvs) = some none) := by
  have hne : ∀ (pre : List (String × Json)) (k : String),
      (∀ kv ∈ pre, RENDERER_KEYS.contains kv.fst = false) →
      RENDERER_KEYS.contains k = true → ∀ kv ∈ pre, kv.fst ≠ k := by
    intro pre k hpre hk kv hkv he
    have hfalse := hpre kv hkv
    rw [he] at hfalse
    rw [hfalse] at hk
    exact Bool.noConfusion hk
  refine ⟨?_, ?_, ?_, ?_⟩
  · intro pre k v post hpre hk
    rw [extract_renderer_item_eq, find_renderer_first pre k v post hpre hk]
    show (List.lookup k (pre ++ (k, v) :: post)).bind
      (fun ren => some (some (ren, k, false))) = some (some (v, k, false))
    rw [lookup_first_match pre k v post (hne pre k hpre hk)]
    rfl
  · intro pre k v post hpre hk
    rw [extract_renderer_banner_eq, find_renderer_first pre k v post hpre hk]
    show (List.lookup k (pre ++ (k, v) :: post)).bind
      (fun ren => some (some (ren, k, true))) = some (some (v, k, true))
    rw [lookup_first_match pre k v post (hne pre k hpre hk)]
    rfl
  · intro kvs h
    rw [extract_renderer_item_eq, find_renderer_none kvs h]
  · intro kvs h
    rw [extract_renderer_banner_eq, find_renderer_none kvs h]

/-- Claim C4: re-running the parser against the same dump into the store it
just produced leaves the set of rows unchanged (NULL-keyed rows are
re-appended as duplicate copies by SQLite, but they duplicate rows already
present, so the row *set* is identical), and no existing row is ever
removed or overwritten. -/
theorem c4_rerun_idempotent (dump : RawChatDump) (s s1 s2 : List Row)
    (h1 : chat_json_to_sqlite dump s = some s1)
    (h2 : chat_json_to_sqlite dump s1 = some s2) :
    (∀ m : Row, m ∈ s2 ↔ m ∈ s1) ∧ (∀ m ∈ s, m ∈ s1) := by
  unfold chat_json_to_sqlite at h1 h2
  cases htops : iter_top_objs dump with
  | none => rw [htops] at h1; exact absurd h1 (by simp)
  | some tops =>
    rw [htops] at h1 h2
    simp only [Option.bind_eq_bind, Option.some_bind] at h1 h2
    cases hrows : mapMO processTop tops with
    | none => rw [hrows] at h1; exact absurd h1 (by simp)
    | some rowss =>
      rw [hrows] at h1 h2
      simp only [Option.some_bind, Option.pure_def, Option.some.injEq] at h1 h2
      subst h1
      subst h2
      constructor
      · exact commit_mem_of_settled rowss.flatten
          (commitRows s rowss.flatten)
          (fun r hr => settled_after rowss.flatten s r hr)
      · exact mem_commitRows rowss.flatten s

/-- Claim C4, witness: a one-message dump committed twice. -/
theorem c4_witness :
    chat_json_to_sqlite c4dump [] = some [c4row] ∧
    chat_json_to_sqlite c4dump [c4row] = some [c4row] ∧
    (c4row ∈ ([c4row] : List Row) ↔ c4row ∈ ([c4row] : List Row)) :=
  ⟨rfl, rfl,
   (c4_rerun_idempotent c4dump [] [c4row] [c4row] rfl rfl).1 c4row⟩

/-- The second components survive the renaming map. -/
theorem renames_map_snd (l : List Thumb) :
    ((l.enum.map (fun it => (thumbName it.1, it.2))).map Prod.snd) = l := by
  rw [List.map_map]
  have hcomp : (Prod.snd ∘ fun it : Nat × Thumb => (thumbName it.1, it.2)) =
      Prod.snd := by
    funext it
    rfl
  rw [hcomp, List.enum_map_snd]

/-- Claim C6: thumbnail dedup deletes exactly the files whose digest was
seen earlier in enumeration order, keeps one file per digest, ranks
survivors by descending byte size, and on the A/B/C instance (A and C
byte-identical, B distinct and larger) keeps B as the main thumbnail and A
as ordinal 1 while deleting C; the empty set is a no-op. -/
theorem c6_thumbnail_dedup {δ : Type} [DecidableEq δ] (digest : List Nat → δ)
    (ts : List Thumb) (a b c : Thumb)
    (hac : a.content = c.content)
    (hba : digest b.content ≠ digest a.content)
    (hab : a.size < b.size) :
    dedup_thumbnails digest ([] : List Thumb) = ([], []) ∧
    (∀ (pre : List Thumb) (x : Thumb) (post : List Thumb),
      ts = pre ++ x :: post →
      (∃ q ∈ pre, digest q.content = digest x.content) →
      x ∈ (dedup_thumbnails digest ts).2) ∧
    (∀ (pre : List Thumb) (x : Thumb) (post : List Thumb),
      ts = pre ++ x :: post →
      (∀ q ∈ pre, digest q.content ≠ digest x.content) →
      x ∈ (dedup_thumbnails digest ts).1.map Prod.snd) ∧
    List.Pairwise (fun x y => digest x.content ≠ digest y.content)
      ((dedup_thumbnails digest ts).1.map Prod.snd) ∧
    List.Pairwise (fun x y => y.size ≤ x.size)
      ((dedup_thumbnails digest ts).1.map Prod.snd) ∧
    dedup_thumbnails digest [a, b, c] =
      ([("thumbnail_main.jpg", b), ("thumbnail_0001.jpg", a)], [c]) := by
  have hca : digest c.content = digest a.content := by rw [hac]
  have hnonempty : ∀ (pre : List Thumb) (x : Thumb) (post : List Thumb),
      dedup_thumbnails digest (pre ++ x :: post) =
        ((sortBySizeDesc (dedupScan digest (pre ++ x :: post) []).1).enum.map
          (fun it => (thumbName it.1, it.2)),
         (dedupScan digest (pre ++ x :: post) []).2) := by
    intro pre x post
    unfold dedup_thumbnails
    have hemp : (pre ++ x :: post).isEmpty = false := by
      cases pre <;> rfl
    rw [hemp]
    rfl
  refine ⟨rfl, ?_, ?_, ?_, ?_, ?_⟩
  · intro pre x post hts hdup
    subst hts
    rw [hnonempty pre x post]
    exact dedupScan_deleted digest pre x post [] (Or.inr hdup)
  · intro pre x post hts hnew
    subst hts
    rw [hnonempty pre x post, renames_map_snd]
    have hmem := dedupScan_kept digest pre x post []
      (List.not_mem_nil _) hnew
    exact ((sortBySizeDesc_perm _).mem_iff).mpr hmem
  · cases hts : ts with
    | nil => simp [dedup_thumbnails]
    | cons t rest =>
      have := hnonempty [] t rest
      simp only [List.nil_append] at this
      rw [this, renames_map_snd]
      exact ((sortBySizeDesc_perm _).pairwise_iff
        (fun h he => h he.symm)).mpr
        (dedupScan_uniq_pairwise digest (t :: rest) [])
  · cases hts : ts with
    | nil => simp [dedup_thumbnails]
    | cons t rest =>
      have := hnonempty [] t rest
      simp only [List.nil_append] at this
      rw [this, renames_map_snd]
      exact sortBySizeDesc_sorted (dedupScan digest (t :: rest) []).1
  · have hscan : dedupScan digest [a, b, c] [] = ([a, b], [c]) := by
      simp [dedupScan, hba, hca]
    have hscan1 : (dedupScan digest [a, b, c] []).1 = [a, b] := by
      rw [hscan]
    have hscan2 : (dedupScan digest [a, b, c] []).2 = [c] := by
      rw [hscan]
    have hsort : sortBySizeDesc [a, b] = [b, a] := by
      simp [sortBySizeDesc, insertBySize, hab]
    have hred : dedup_thumbnails digest [a, b, c] =
        ((sortBySizeDesc (dedupScan digest [a, b, c] []).1).enum.map
          (fun it => (thumbName it.1, it.2)),
         (dedupScan digest [a, b, c] []).2) := rfl
    rw [hred, hscan1, hscan2, hsort]
    simp only [List.enum, List.enumFrom, List.map_cons, List.map_nil,
      Prod.mk.injEq, List.cons.injEq, and_true, true_and]
    refine ⟨?_, ?_⟩ <;> rfl

/-- Claim C6, witness: the identity digest on concrete bytes. -/
theorem c6_witness :
    dedup_thumbnails (fun l => l) [c6A, c6B, c6C] =
      ([("thumbnail_main.jpg", c6B), ("thumbnail_0001.jpg", c6A)], [c6C]) ∧
    dedup_thumbnails (fun l => l) ([] : List Thumb) = ([], []) :=
  ⟨(c6_thumbnail_dedup (fun l => l) [c6A, c6B, c6C] c6A c6B c6C rfl
      (by decide) (by decide)).2.2.2.2.2,
   (c6_thumbnail_dedup (fun l => l) [] c6A c6B c6C rfl
      (by decide) (by decide)).1⟩

/-- Claim C1, witness: a two-key item resolved by document order, and a
bannered empty contents object yielding no row. -/
theorem c1_witness :
    extract_renderer (itemWrapper c1item) =
      some (some (Json.obj [("id", Json.str "p")],
        "liveChatPaidMessageRenderer", false)) ∧
    extract_renderer (bannerWrapper []) = some none :=
  ⟨c1_first_document_key_wins.1 []
      ("liveChatPaidMessageRenderer") (Json.obj [("id", Json.str "p")])
      [("liveChatTextMessageRenderer", Json.obj [("id", Json.str "t")])]
      (by simp) (by decide),
   c1_first_document_key_wins.2.2.2 [] (by simp)⟩
